import Mathlib

/-!
Verification of the event-ticket-api booking core against its specification.

The definitions below are a shallow embedding of the Go sources of the
repository, mainly of:
  - event-ticket-service/service/booking_service.go  (bookingService)
  - the ticket repository (ticketRepository.FindAvailableByEventID, ...)
  - the RabbitMQ consumer loop (RabbitMQ.ConsumeMessages) and the saga
    handlers handlePaymentCompleted / handlePaymentFailed /
    handlePaymentRefunded / handleUserDeleted / handleUserSuspended
  - the booking HTTP handler (BookingHandler.CreateBooking)
  - the notification service dispatcher (HandleTicketEvent)

Modelling conventions:
  - uuid.UUID is modelled as Nat, with 0 standing for uuid.Nil;
  - float64 prices are modelled as exact integers (every price in the
    claims is integral and no claim depends on rounding or fractional
    values; only addition and equality of prices are ever used);
  - time.Time is modelled as Int (only ordering is used by the code);
  - the relational store is a record of three lists (events, tickets,
    bookings); gorm Save-by-primary-key on a row becomes a map over the
    list updating the rows with the matching id, and primary-key
    uniqueness of a table becomes a Nodup hypothesis on the id column
    where a theorem needs it;
  - message publication (RabbitMQ) is modelled by the payload value the
    code builds; it is not part of the persistent state.
-/

namespace EventTicket

/-- Model of model.Ticket (event-ticket-service/model/ticket.go): one
sellable ticket unit.  The Go field Type is rendered as typ. -/
structure Ticket where
  id : Nat
  eventId : Nat
  typ : String
  price : ℤ
  status : String
  userId : Nat
  bookingId : Nat
deriving Repr, DecidableEq

/-- Model of model.Booking (event-ticket-service/model/ticket.go). -/
structure Booking where
  id : Nat
  userId : Nat
  eventId : Nat
  status : String
  totalPrice : ℤ
deriving Repr, DecidableEq

/-- Model of model.Event restricted to the fields the booking flow reads
(ID, Status, StartDate). -/
structure Event where
  id : Nat
  status : String
  startDate : Int
deriving Repr, DecidableEq

/-- The relational store of the event-ticket service: the three tables the
booking flow touches. -/
structure DB where
  events : List Event
  tickets : List Ticket
  bookings : List Booking
deriving Repr, DecidableEq

/-- One line item of model.CreateBookingRequest: Type and Quantity.
Quantity is a Go int, hence modelled as Int. -/
structure LineItem where
  typ : String
  quantity : Int
deriving Repr, DecidableEq

/-- Model of model.CreateBookingRequest. -/
structure CreateBookingRequest where
  eventId : Nat
  tickets : List LineItem
deriving Repr, DecidableEq

/-- Model of ticketRepository.FindAvailableByEventID: rows with the given
event id and status available, additionally filtered by type when the
requested type is non-empty (the Go code only adds the type clause for a
non-empty string). -/
def findAvailableByEventID (db : DB) (eventId : Nat) (ticketType : String) : List Ticket :=
  let base := db.tickets.filter (fun t => t.eventId == eventId && t.status == "available")
  if ticketType == "" then base else base.filter (fun t => t.typ == ticketType)

/-- The line-item loop of bookingService.CreateBooking: for each line item
query the available tickets of the requested type, fail with the Go error
text if fewer than the requested quantity are available, otherwise select
the first quantity of them.  All queries read the same pre-state: the Go
loop issues no database write (writes happen after the loop), so every
FindAvailableByEventID call observes the state at the start of the call. -/
def claimLoop (db : DB) (eventId : Nat) : List LineItem → Except String (List Ticket)
  | [] => .ok []
  | item :: rest =>
      let avail := findAvailableByEventID db eventId item.typ
      if (avail.length : Int) < item.quantity then
        .error ("not enough tickets available for type " ++ item.typ)
      else
        match claimLoop db eventId rest with
        | .error e => .error e
        | .ok ts => .ok (avail.take item.quantity.toNat ++ ts)

/-- Write-phase row update of CreateBooking: the selected tickets are saved
with status reserved, the buyer id and the new booking id. -/
def reserveTicket (sids : List Nat) (bid uid : Nat) (t : Ticket) : Ticket :=
  if sids.contains t.id then
    { t with status := "reserved", userId := uid, bookingId := bid }
  else t

/-- Model of bookingService.CreateBooking, split into a read state and a
write state.  All validation and ticket selection read dbRead; the booking
insert and the ticket batch update are applied to dbWrite.  The sequential
execution of the Go code is the diagonal dbRead = dbWrite; the split makes
the unguarded read-then-update pattern of the source explicit (the plain
SELECT in FindAvailableByEventID takes no row lock, and the repository
calls inside the gorm Transaction closure use the base connection, not the
transaction handle), so two calls may both read before either writes.
now is the value of time.Now(); bid is the uuid the booking receives. -/
def createBookingAt (dbRead dbWrite : DB) (now : Int) (bid uid : Nat)
    (req : CreateBookingRequest) : DB × Except String Booking :=
  match dbRead.events.find? (fun e => e.id == req.eventId) with
  | none => (dbWrite, .error "event not found")
  | some event =>
      if event.status != "active" then (dbWrite, .error "event is not active")
      else if event.startDate < now then (dbWrite, .error "event has already started")
      else
        match claimLoop dbRead req.eventId req.tickets with
        | .error e => (dbWrite, .error e)
        | .ok selected =>
            let totalPrice := (selected.map (fun t => t.price)).sum
            let booking : Booking :=
              { id := bid, userId := uid, eventId := req.eventId
                status := "pending", totalPrice := totalPrice }
            let sids := selected.map (fun t => t.id)
            ({ dbWrite with
                bookings := dbWrite.bookings ++ [booking]
                tickets := dbWrite.tickets.map (reserveTicket sids bid uid) },
             .ok booking)

/-- Model of bookingService.CreateBooking run sequentially: reads and
writes against the same current state. -/
def createBooking (db : DB) (now : Int) (bid uid : Nat)
    (req : CreateBookingRequest) : DB × Except String Booking :=
  createBookingAt db db now bid uid req

/-- The ticket status UpdateBookingStatus derives from the target booking
status (the Go switch: confirmed gives sold, cancelled and refunded give
available, anything else keeps the default reserved). -/
def ticketStatusFor (status : String) : String :=
  if status == "confirmed" then "sold"
  else if status == "cancelled" then "available"
  else if status == "refunded" then "available"
  else "reserved"

/-- Row update UpdateBookingStatus applies to each ticket of the booking:
the derived status, and cleared owner fields when the derived status is
available. -/
def applyTicketStatus (bid : Nat) (ts : String) (t : Ticket) : Ticket :=
  if t.bookingId == bid then
    if ts == "available" then { t with status := ts, userId := 0, bookingId := 0 }
    else { t with status := ts }
  else t

/-- Row update UpdateBookingStatus applies to the booking table: the Save
by primary key replaces the row with the given id by the found row with
the new status assigned (which under primary-key uniqueness is exactly the
row itself with the status replaced). -/
def applyBookingStatus (id : Nat) (status : String) (bk : Booking) : Booking :=
  if bk.id == id then { bk with status := status } else bk

/-- Model of bookingService.UpdateBookingStatus.  The Go code finds the
booking, unconditionally assigns the requested status (there is no
transition-table check), saves it, then rewrites all tickets of the
booking with the derived ticket status, clearing owner fields when that
status is available.  On an unknown id it returns the booking-not-found
error and changes nothing. -/
def updateBookingStatus (db : DB) (id : Nat) (status : String) :
    DB × Except String Booking :=
  match db.bookings.find? (fun b => b.id == id) with
  | none => (db, .error "booking not found")
  | some b =>
      let ts := ticketStatusFor status
      ({ db with
          bookings := db.bookings.map (applyBookingStatus id status)
          tickets := db.tickets.map (applyTicketStatus id ts) },
       .ok { b with status := status })

/-- Model of bookingService.CancelBooking: delegate to UpdateBookingStatus
with target cancelled (the subsequent FindByID and publish do not change
the store). -/
def cancelBooking (db : DB) (id : Nat) : DB × Except String Booking :=
  updateBookingStatus db id "cancelled"

/-- Values appearing in the published event payload map. -/
inductive PayloadValue where
  | str (s : String)
  | time
deriving Repr, DecidableEq

/-- Model of bookingService.publishBookingEvent: the exact key set of the
payload map the Go code marshals (event_type, booking_id, user_id,
event_id, status, timestamp) with the uuid fields rendered as strings. -/
def publishBookingEventPayload (eventType : String) (b : Booking) :
    List (String × PayloadValue) :=
  [("event_type", .str eventType),
   ("booking_id", .str (toString b.id)),
   ("user_id", .str (toString b.userId)),
   ("event_id", .str (toString b.eventId)),
   ("status", .str b.status),
   ("timestamp", .time)]

/-- The event types the notification service dispatcher HandleTicketEvent
reacts to; every other event type on the ticket_events exchange is logged
and acknowledged without any notification being created. -/
def handleTicketEventKnown (eventType : String) : Bool :=
  eventType == "ticket_booked" || eventType == "ticket_cancelled" ||
    eventType == "event_reminder"

/-- Broker acknowledgement outcome of one consumed message in
RabbitMQ.ConsumeMessages: a handler error is answered with
Nack(multiple=false, requeue=true), success with Ack. -/
inductive AckAction where
  | ack
  | nackRequeue
deriving Repr, DecidableEq

/-- Model of the payment-event consumer of the event-ticket service main:
the switch on event_type dispatches to handlePaymentCompleted (confirm),
handlePaymentFailed (cancel), handlePaymentRefunded (refund); unknown
types are acknowledged.  The surrounding ConsumeMessages loop acks on a
nil handler error and nacks with requeue on a non-nil one. -/
def processPaymentEvent (db : DB) (eventType : String) (bookingId : Nat) :
    DB × AckAction :=
  if eventType == "payment.completed" then
    let r := updateBookingStatus db bookingId "confirmed"
    (r.1, match r.2 with | .ok _ => .ack | .error _ => .nackRequeue)
  else if eventType == "payment.failed" then
    let r := cancelBooking db bookingId
    (r.1, match r.2 with | .ok _ => .ack | .error _ => .nackRequeue)
  else if eventType == "payment.refunded" then
    let r := updateBookingStatus db bookingId "refunded"
    (r.1, match r.2 with | .ok _ => .ack | .error _ => .nackRequeue)
  else (db, .ack)

/-- Modelled from the spec: bookingService.GetBookingsByUserID is called by
handleUserDeleted and handleUserSuspended but its definition is not among
the provided sources (only the caller is).  Per the spec the account
handlers act on all of that buyer's bookings, so the lookup returns every
booking of the user. -/
def getBookingsByUserID (db : DB) (userId : Nat) : List Booking :=
  db.bookings.filter (fun b => b.userId == userId)

/-- Model of handleUserDeleted: fetch the user's bookings once, then cancel
each one whose snapshot status is pending or confirmed; cancellation
errors are logged and skipped. -/
def handleUserDeleted (db : DB) (userId : Nat) : DB :=
  (getBookingsByUserID db userId).foldl
    (fun acc b =>
      if b.status == "pending" || b.status == "confirmed" then
        (cancelBooking acc b.id).1
      else acc) db

/-- Model of handleUserSuspended: like handleUserDeleted but only bookings
whose snapshot status is pending are cancelled. -/
def handleUserSuspended (db : DB) (userId : Nat) : DB :=
  (getBookingsByUserID db userId).foldl
    (fun acc b =>
      if b.status == "pending" then (cancelBooking acc b.id).1 else acc) db

/-- The request validation of BookingHandler.CreateBooking: a non-nil event
id and a non-empty ticket list.  No per-line-item quantity check exists,
and the binding tags on the nested slice elements are not applied (no dive
tag), so any quantity value reaches the service. -/
def validateCreateBookingRequest (req : CreateBookingRequest) : Bool :=
  req.eventId != 0 && !req.tickets.isEmpty

/-! Definitions for the price-invariant analysis (claim C7): sums of
assigned ticket prices, a well-formedness predicate, the booking state
machine's transition table from the spec, and traces of the service's
public operations. -/

/-- Sum of the prices of the ticket rows owned by the given booking id. -/
def ticketsAssignedSum (ts : List Ticket) (bid : Nat) : ℤ :=
  ((ts.filter (fun t => t.bookingId == bid)).map (fun t => t.price)).sum

/-- Sum of the prices of the ticket units assigned to a booking. -/
def assignedPriceSum (db : DB) (bid : Nat) : ℤ :=
  ticketsAssignedSum db.tickets bid

/-- The price invariant of the spec: every pending or confirmed booking's
total price equals the sum of the prices of its currently assigned ticket
units. -/
def priceInv (db : DB) : Prop :=
  ∀ b ∈ db.bookings, (b.status = "pending" ∨ b.status = "confirmed") →
    assignedPriceSum db b.id = b.totalPrice

/-- Well-formedness of a store: primary-key uniqueness of bookings and
tickets, non-nil booking ids, the spec's TicketUnit invariant (an
available unit has a nil owning booking), and the price invariant. -/
def WF (db : DB) : Prop :=
  (db.bookings.map (fun b => b.id)).Nodup ∧
  (db.tickets.map (fun t => t.id)).Nodup ∧
  (∀ b ∈ db.bookings, b.id ≠ 0) ∧
  (∀ t ∈ db.tickets, t.status = "available" → t.bookingId = 0) ∧
  priceInv db

/-- The transition table of the spec's booking state machine: pending may
move to confirmed or cancelled, confirmed may move to refunded or
cancelled, the terminal states have no outgoing edge. -/
def allowedTransition (src tgt : String) : Bool :=
  (src == "pending" && (tgt == "confirmed" || tgt == "cancelled")) ||
    (src == "confirmed" && (tgt == "refunded" || tgt == "cancelled"))

/-- The public operations that touch booking and ticket state. -/
inductive Op where
  | create (now : Int) (bid uid : Nat) (req : CreateBookingRequest)
  | updateStatus (id : Nat) (target : String)
  | cancel (id : Nat)
deriving Repr, DecidableEq

/-- State effect of one operation. -/
def applyOp (db : DB) : Op → DB
  | .create now bid uid req => (createBooking db now bid uid req).1
  | .updateStatus id target => (updateBookingStatus db id target).1
  | .cancel id => (cancelBooking db id).1

/-- State after a sequence of operations. -/
def applyTrace (db : DB) : List Op → DB
  | [] => db
  | op :: ops => applyTrace (applyOp db op) ops

/-- Validity of one operation in a state: a creation uses a fresh non-nil
booking id and pairwise-distinct, non-wildcard (non-empty) line-item
types; a status update or cancel of an existing booking follows the
transition table (on an absent id the operation is a no-op and is always
acceptable). -/
def validOp (db : DB) : Op → Bool
  | .create _ bid _ req =>
      (bid != 0) && db.bookings.all (fun b => b.id != bid) &&
        db.tickets.all (fun t => t.bookingId != bid) &&
        req.tickets.all (fun item => item.typ != "") &&
        decide (req.tickets.map (fun item => item.typ)).Nodup
  | .updateStatus id target =>
      match db.bookings.find? (fun b => b.id == id) with
      | some b => allowedTransition b.status target
      | none => true
  | .cancel id =>
      match db.bookings.find? (fun b => b.id == id) with
      | some b => allowedTransition b.status "cancelled"
      | none => true

/-- Validity of a whole operation sequence. -/
def validTrace (db : DB) : List Op → Bool
  | [] => true
  | op :: ops => validOp db op && validTrace (applyOp db op) ops

instance decidablePriceInv (db : DB) : Decidable (priceInv db) := by
  unfold priceInv
  exact inferInstance

instance decidableWF (db : DB) : Decidable (WF db) := by
  unfold WF
  exact inferInstance

/-- A released ticket row: status available, both owner fields nil. -/
def releasedTicket (t : Ticket) : Ticket :=
  { t with status := "available", userId := 0, bookingId := 0 }

/-- The state effect of one CancelBooking call. -/
def cancelState (db : DB) (id : Nat) : DB :=
  (cancelBooking db id).1

/-- Whether some booking row carries the given id. -/
def hasBookingId (db : DB) (i : Nat) : Bool :=
  (db.bookings.find? (fun b => b.id == i)).isSome

/-- Folding cancellations over a list of ids. -/
def cancelSeq (db : DB) (ids : List Nat) : DB :=
  ids.foldl cancelState db

/-- Cumulative effect of a list of cancellations on one booking row. -/
def cancelMarks (ids : List Nat) (bk : Booking) : Booking :=
  if bk.id ∈ ids then { bk with status := "cancelled" } else bk

/-- Cumulative effect of a list of cancellations on one ticket row: the row
is released when its owning booking id is cancelled and actually present
in the booking table. -/
def releaseMarks (pres : Nat → Bool) (ids : List Nat) (t : Ticket) : Ticket :=
  if t.bookingId ∈ ids ∧ pres t.bookingId = true then releasedTicket t else t

/-! Concrete fixtures used by witnesses and counterexamples. -/

/-- A request with two line items of the same type, one unit each. -/
def reqDupVip : CreateBookingRequest :=
  { eventId := 1,
    tickets := [{ typ := "VIP", quantity := 1 }, { typ := "VIP", quantity := 1 }] }

/-- A valid trace: create a booking for one VIP unit, then confirm it. -/
def opsCreateThenConfirm : List Op :=
  [.create 0 201 301 { eventId := 1, tickets := [{ typ := "VIP", quantity := 1 }] },
   .updateStatus 201 "confirmed"]

/-- A store with one active future event and one available VIP ticket. -/
def dbOneVip : DB where
  events := [{ id := 1, status := "active", startDate := 10 }]
  tickets := [{ id := 100, eventId := 1, typ := "VIP", price := 100,
                status := "available", userId := 0, bookingId := 0 }]
  bookings := []

/-- A request for one VIP ticket of event 1. -/
def reqOneVip : CreateBookingRequest :=
  { eventId := 1, tickets := [{ typ := "VIP", quantity := 1 }] }

/-- A store holding a single booking that is already cancelled. -/
def dbCancelledBooking : DB where
  events := []
  tickets := []
  bookings := [{ id := 1, userId := 5, eventId := 9, status := "cancelled", totalPrice := 100 }]

/-- An empty store: no events, tickets or bookings. -/
def dbEmpty : DB where
  events := []
  tickets := []
  bookings := []

/-- A request whose line items carry quantities 0 and -2. -/
def reqNonPositive : CreateBookingRequest :=
  { eventId := 1, tickets := [{ typ := "VIP", quantity := 0 }, { typ := "VIP", quantity := -2 }] }

/-- A store holding one pending booking owning one reserved ticket. -/
def dbPendingBooking : DB where
  events := []
  tickets := [{ id := 100, eventId := 1, typ := "VIP", price := 100,
                status := "reserved", userId := 301, bookingId := 201 }]
  bookings := [{ id := 201, userId := 301, eventId := 1, status := "pending", totalPrice := 100 }]

/-- A store with one user (7) holding pending, confirmed and refunded
bookings, another user (8) holding a pending booking, and one reserved
ticket owned by the pending booking of user 7. -/
def dbUserBookings : DB where
  events := []
  tickets := [{ id := 100, eventId := 1, typ := "V", price := 50,
                status := "reserved", userId := 7, bookingId := 11 }]
  bookings :=
    [{ id := 11, userId := 7, eventId := 1, status := "pending", totalPrice := 50 },
     { id := 12, userId := 7, eventId := 1, status := "confirmed", totalPrice := 0 },
     { id := 13, userId := 7, eventId := 1, status := "refunded", totalPrice := 0 },
     { id := 14, userId := 8, eventId := 1, status := "pending", totalPrice := 0 }]


/-! Helper lemmas about the row updates of UpdateBookingStatus. -/

/-- The booking-row update keeps the row id. -/
theorem applyBookingStatus_id (id : Nat) (st : String) (bk : Booking) :
    (applyBookingStatus id st bk).id = bk.id := by
  unfold applyBookingStatus; split <;> rfl

/-- Applying the booking-row update twice is the same as applying it once. -/
theorem applyBookingStatus_idem (id : Nat) (st : String) (bk : Booking) :
    applyBookingStatus id st (applyBookingStatus id st bk) = applyBookingStatus id st bk := by
  unfold applyBookingStatus
  by_cases h : bk.id == id <;> simp [h]

/-- The ticket-row update keeps the row id. -/
theorem applyTicketStatus_ticketId (bid : Nat) (ts : String) (t : Ticket) :
    (applyTicketStatus bid ts t).id = t.id := by
  unfold applyTicketStatus; split <;> [split <;> rfl; rfl]

/-- Applying the ticket-row update twice is the same as applying it once
(re-releasing a released row and re-selling a sold row write back the same
values). -/
theorem applyTicketStatus_idem (bid : Nat) (ts : String) (t : Ticket) :
    applyTicketStatus bid ts (applyTicketStatus bid ts t) = applyTicketStatus bid ts t := by
  unfold applyTicketStatus
  by_cases hm : t.bookingId == bid
  · by_cases ha : ts == "available"
    · simp only [hm, if_true, ha]
      by_cases h0 : (0 : Nat) == bid <;> simp [h0, ha]
    · simp [hm, ha]
  · simp [hm]

/-- Finding a booking by id in the updated table finds the updated version
of the row found in the original table. -/
theorem find?_map_applyBookingStatus (l : List Booking) (id : Nat) (st : String)
    (qid : Nat) :
    (l.map (applyBookingStatus id st)).find? (fun b => b.id == qid) =
      (l.find? (fun b => b.id == qid)).map (applyBookingStatus id st) := by
  have hp : ((fun b : Booking => b.id == qid) ∘ applyBookingStatus id st) =
      (fun b : Booking => b.id == qid) := by
    funext bk
    simp [Function.comp, applyBookingStatus_id]
  rw [List.find?_map, hp]

/-- The state effect of UpdateBookingStatus is idempotent: running it a
second time with the same id and target rewrites every touched row with
the values it already has. -/
theorem updateBookingStatus_state_idem (db : DB) (id : Nat) (st : String) :
    (updateBookingStatus (updateBookingStatus db id st).1 id st).1 =
      (updateBookingStatus db id st).1 := by
  cases hfind : db.bookings.find? (fun b => b.id == id) with
  | none => simp [updateBookingStatus, hfind]
  | some b =>
      have hfind2 :
          (db.bookings.map (applyBookingStatus id st)).find? (fun bk => bk.id == id) =
            some (applyBookingStatus id st b) := by
        rw [find?_map_applyBookingStatus, hfind]
        rfl
      simp only [updateBookingStatus, hfind, hfind2]
      congr 1
      · rw [List.map_map]
        exact List.map_congr_left (fun t _ => applyTicketStatus_idem id (ticketStatusFor st) t)
      · rw [List.map_map]
        exact List.map_congr_left (fun bk _ => applyBookingStatus_idem id st bk)

/-! Helper definitions and lemmas for the account-lifecycle handlers:
folding cancellations over a list of booking ids is characterised by a
single map over each table. -/

/-- State effect of cancelling a present booking. -/
theorem cancelState_found (db : DB) (id : Nat) (b : Booking)
    (h : db.bookings.find? (fun bk => bk.id == id) = some b) :
    cancelState db id =
      { db with
          bookings := db.bookings.map (applyBookingStatus id "cancelled")
          tickets := db.tickets.map (applyTicketStatus id "available") } := by
  have hav : ticketStatusFor "cancelled" = "available" := rfl
  simp [cancelState, cancelBooking, updateBookingStatus, h, hav]

/-- Cancelling an absent booking id changes nothing. -/
theorem cancelState_none (db : DB) (id : Nat)
    (h : db.bookings.find? (fun bk => bk.id == id) = none) :
    cancelState db id = db := by
  simp [cancelState, cancelBooking, updateBookingStatus, h]

/-- Cancellation does not change which booking ids are present. -/
theorem cancelState_hasBookingId (db : DB) (id i : Nat) :
    hasBookingId (cancelState db id) i = hasBookingId db i := by
  cases h : db.bookings.find? (fun bk => bk.id == id) with
  | none => rw [cancelState_none db id h]
  | some b =>
      have hbk : (cancelState db id).bookings =
          db.bookings.map (applyBookingStatus id "cancelled") := by
        rw [cancelState_found db id b h]
      unfold hasBookingId
      rw [hbk, find?_map_applyBookingStatus]
      cases db.bookings.find? (fun bk => bk.id == i) <;> rfl

/-- Cancellation does not change the event table. -/
theorem cancelState_events (db : DB) (id : Nat) :
    (cancelState db id).events = db.events := by
  cases h : db.bookings.find? (fun bk => bk.id == id) with
  | none => rw [cancelState_none db id h]
  | some b => rw [cancelState_found db id b h]

/-- One cancellation followed by the marks of later ids equals the marks of
the whole id list, on a booking row. -/
theorem cancelMarks_step (ids : List Nat) (i : Nat) (bk : Booking) :
    cancelMarks ids (applyBookingStatus i "cancelled" bk) = cancelMarks (i :: ids) bk := by
  by_cases hbi : bk.id = i
  · subst hbi
    by_cases hin : bk.id ∈ ids <;> simp [cancelMarks, applyBookingStatus, hin]
  · have hb : (bk.id == i) = false := by simpa using hbi
    simp [cancelMarks, applyBookingStatus, hb, List.mem_cons, hbi]

/-- One cancellation of a present id followed by the marks of later ids
equals the marks of the whole id list, on a ticket row. -/
theorem releaseMarks_step (pres : Nat → Bool) (ids : List Nat) (i : Nat) (t : Ticket)
    (hpres : pres i = true) :
    releaseMarks pres ids (applyTicketStatus i "available" t) =
      releaseMarks pres (i :: ids) t := by
  by_cases hmi : t.bookingId = i
  · subst hmi
    by_cases h0 : (0 : Nat) ∈ ids ∧ pres 0 = true <;>
      simp [releaseMarks, applyTicketStatus, releasedTicket, h0, hpres]
  · have hm : (t.bookingId == i) = false := by simpa using hmi
    simp [releaseMarks, applyTicketStatus, hm, List.mem_cons, hmi]

/-- Cancelling an absent id leaves the marks of the remaining ids, on a
ticket row. -/
theorem releaseMarks_absent (pres : Nat → Bool) (ids : List Nat) (i : Nat) (t : Ticket)
    (hpres : pres i = false) :
    releaseMarks pres ids t = releaseMarks pres (i :: ids) t := by
  by_cases hmi : t.bookingId = i
  · subst hmi
    simp [releaseMarks, hpres]
  · simp only [releaseMarks, List.mem_cons, hmi, false_or]

/-- Characterisation of a fold of cancellations: the event table is
untouched, every booking row receives its cumulative cancel mark, and
every ticket row its cumulative release mark (presence taken in the
initial state). -/
theorem cancelSeq_spec (ids : List Nat) : ∀ db : DB,
    (cancelSeq db ids).events = db.events ∧
    (cancelSeq db ids).bookings = db.bookings.map (cancelMarks ids) ∧
    (cancelSeq db ids).tickets = db.tickets.map (releaseMarks (hasBookingId db) ids) := by
  induction ids with
  | nil =>
      intro db
      refine ⟨rfl, ?_, ?_⟩
      · rw [show cancelSeq db [] = db from rfl,
          show db.bookings.map (cancelMarks []) = db.bookings.map id from
            List.map_congr_left (fun bk _ => by simp [cancelMarks]), List.map_id]
      · rw [show cancelSeq db [] = db from rfl,
          show db.tickets.map (releaseMarks (hasBookingId db) []) = db.tickets.map id from
            List.map_congr_left (fun t _ => by simp [releaseMarks]), List.map_id]
  | cons i ids ih =>
      intro db
      have hstep : cancelSeq db (i :: ids) = cancelSeq (cancelState db i) ids := rfl
      obtain ⟨ihe, ihb, iht⟩ := ih (cancelState db i)
      have hpresEq : hasBookingId (cancelState db i) = hasBookingId db :=
        funext (fun j => cancelState_hasBookingId db i j)
      rw [hpresEq] at iht
      cases h : db.bookings.find? (fun bk => bk.id == i) with
      | some b =>
          have hfound := cancelState_found db i b h
          have hpres : hasBookingId db i = true := by
            unfold hasBookingId
            rw [h]
            rfl
          refine ⟨?_, ?_, ?_⟩
          · rw [hstep, ihe, cancelState_events]
          · rw [hstep, ihb, hfound]
            rw [List.map_map]
            exact List.map_congr_left (fun bk _ => cancelMarks_step ids i bk)
          · rw [hstep, iht, hfound]
            rw [List.map_map]
            exact List.map_congr_left
              (fun t _ => releaseMarks_step (hasBookingId db) ids i t hpres)
      | none =>
          have hnone := cancelState_none db i h
          have hpres : hasBookingId db i = false := by
            unfold hasBookingId
            rw [h]
            rfl
          have habsent : ∀ bk ∈ db.bookings, ¬ bk.id = i := by
            intro bk hbk
            have := List.find?_eq_none.mp h bk hbk
            simpa using this
          refine ⟨?_, ?_, ?_⟩
          · rw [hstep, ihe, cancelState_events]
          · rw [hstep, ihb, hnone]
            exact List.map_congr_left (fun bk hbk => by
              unfold cancelMarks
              simp only [List.mem_cons, habsent bk hbk, false_or])
          · rw [hstep, iht, hnone]
            exact List.map_congr_left
              (fun t _ => releaseMarks_absent (hasBookingId db) ids i t hpres)

/-- A conditional cancellation fold over bookings is the id-fold over the
kept bookings' ids. -/
theorem foldl_cond_filter (keep : Booking → Bool) :
    ∀ (bs : List Booking) (db : DB),
      bs.foldl (fun acc b => if keep b then cancelState acc b.id else acc) db =
        cancelSeq db ((bs.filter keep).map (fun b => b.id)) := by
  intro bs
  induction bs with
  | nil => intro db; rfl
  | cons b bs ih =>
      intro db
      by_cases hk : keep b
      · simp only [List.foldl_cons, hk, if_true, List.filter_cons_of_pos hk, List.map_cons]
        exact ih (cancelState db b.id)
      · simp only [List.foldl_cons, hk, if_false, Bool.false_eq_true,
          List.filter_cons_of_neg (by simpa using hk)]
        exact ih db

/-- handleUserDeleted is the cancellation fold over the ids of the user's
pending or confirmed bookings (snapshot taken before the first
cancellation). -/
theorem handleUserDeleted_eq (db : DB) (uid : Nat) :
    handleUserDeleted db uid =
      cancelSeq db
        (((getBookingsByUserID db uid).filter
            (fun b => b.status == "pending" || b.status == "confirmed")).map (fun b => b.id)) :=
  foldl_cond_filter (fun b => b.status == "pending" || b.status == "confirmed")
    (getBookingsByUserID db uid) db

/-- handleUserSuspended is the cancellation fold over the ids of the
user's pending bookings. -/
theorem handleUserSuspended_eq (db : DB) (uid : Nat) :
    handleUserSuspended db uid =
      cancelSeq db
        (((getBookingsByUserID db uid).filter (fun b => b.status == "pending")).map
          (fun b => b.id)) :=
  foldl_cond_filter (fun b => b.status == "pending") (getBookingsByUserID db uid) db

/-- Effect of cancelling all of one user's bookings selected by a status
predicate: each selected booking row becomes cancelled, every other
booking row is untouched, and exactly the ticket rows owned by a selected
booking are released. -/
theorem userCancel_spec (db : DB) (uid : Nat) (keep : Booking → Bool) (P : Booking → Prop)
    [DecidablePred P] (hP : ∀ b, keep b = true ↔ P b)
    (hnodup : (db.bookings.map (fun b => b.id)).Nodup) :
    (cancelSeq db (((getBookingsByUserID db uid).filter keep).map (fun b => b.id))).bookings =
      db.bookings.map (fun bk =>
        if bk.userId = uid ∧ P bk then { bk with status := "cancelled" } else bk) ∧
    (cancelSeq db (((getBookingsByUserID db uid).filter keep).map (fun b => b.id))).tickets =
      db.tickets.map (fun t =>
        if ∃ b ∈ db.bookings, b.id = t.bookingId ∧ b.userId = uid ∧ P b
        then releasedTicket t else t) := by
  obtain ⟨-, hb, ht⟩ :=
    cancelSeq_spec (((getBookingsByUserID db uid).filter keep).map (fun b => b.id)) db
  constructor
  · rw [hb]
    refine List.map_congr_left (fun bk hbk => ?_)
    unfold cancelMarks
    refine if_congr ?_ rfl rfl
    unfold getBookingsByUserID
    constructor
    · intro hmem
      obtain ⟨b', hb', hid⟩ := List.mem_map.mp hmem
      obtain ⟨hb'1, hkeep⟩ := List.mem_filter.mp hb'
      obtain ⟨hb'2, huid⟩ := List.mem_filter.mp hb'1
      have hbeq : b' = bk := List.inj_on_of_nodup_map hnodup hb'2 hbk hid
      subst hbeq
      exact ⟨by simpa using huid, (hP b').mp hkeep⟩
    · rintro ⟨huid, hPbk⟩
      exact List.mem_map.mpr
        ⟨bk, List.mem_filter.mpr
          ⟨List.mem_filter.mpr ⟨hbk, by simpa using huid⟩, (hP bk).mpr hPbk⟩, rfl⟩
  · rw [ht]
    refine List.map_congr_left (fun t _ => ?_)
    unfold releaseMarks
    refine if_congr ?_ rfl rfl
    unfold getBookingsByUserID
    constructor
    · rintro ⟨hmem, -⟩
      obtain ⟨b', hb', hid⟩ := List.mem_map.mp hmem
      obtain ⟨hb'1, hkeep⟩ := List.mem_filter.mp hb'
      obtain ⟨hb'2, huid⟩ := List.mem_filter.mp hb'1
      exact ⟨b', hb'2, hid, by simpa using huid, (hP b').mp hkeep⟩
    · rintro ⟨b, hbmem, hid, huid, hPb⟩
      refine ⟨List.mem_map.mpr
        ⟨b, List.mem_filter.mpr
          ⟨List.mem_filter.mpr ⟨hbmem, by simpa using huid⟩, (hP b).mpr hPb⟩, hid⟩, ?_⟩
      unfold hasBookingId
      cases hf : db.bookings.find? (fun x => x.id == t.bookingId) with
      | some _ => rfl
      | none =>
          have hnb := List.find?_eq_none.mp hf b hbmem
          exact absurd (by simpa using hid) hnb

/-! Helper lemmas about the line-item loop. -/

/-- When some line item of the request asks for more units than its
availability query returns, the loop fails with the Go error text of the
first such item. -/
theorem claimLoop_error_of_short (db : DB) (eid : Nat) :
    ∀ items : List LineItem,
      (∃ item ∈ items,
        ((findAvailableByEventID db eid item.typ).length : Int) < item.quantity) →
      ∃ item ∈ items,
        ((findAvailableByEventID db eid item.typ).length : Int) < item.quantity ∧
        claimLoop db eid items =
          .error ("not enough tickets available for type " ++ item.typ) := by
  intro items
  induction items with
  | nil => rintro ⟨item, h, -⟩; exact absurd h (List.not_mem_nil item)
  | cons item rest ih =>
      rintro ⟨w, hw, hshort⟩
      by_cases hhead : ((findAvailableByEventID db eid item.typ).length : Int) < item.quantity
      · exact ⟨item, List.mem_cons_self item rest, hhead, by simp [claimLoop, hhead]⟩
      · have hwrest : w ∈ rest := by
          rcases List.mem_cons.mp hw with h | h
          · exact absurd (h ▸ hshort) hhead
          · exact h
        obtain ⟨item', hmem, hshort', herr⟩ := ih ⟨w, hwrest, hshort⟩
        exact ⟨item', List.mem_cons_of_mem item hmem, hshort',
          by simp [claimLoop, hhead, herr]⟩

/-- When every line item requests a non-positive quantity, every
availability check passes (a list length is never below a non-positive
number) and nothing is selected. -/
theorem claimLoop_ok_nil_of_nonpos (db : DB) (eid : Nat) :
    ∀ items : List LineItem, (∀ item ∈ items, item.quantity ≤ 0) →
      claimLoop db eid items = .ok [] := by
  intro items
  induction items with
  | nil => intro _; rfl
  | cons item rest ih =>
      intro h
      have hq : item.quantity ≤ 0 := h item (List.mem_cons_self item rest)
      have hnotshort :
          ¬ ((findAvailableByEventID db eid item.typ).length : Int) < item.quantity :=
        not_lt.mpr (le_trans hq (Int.ofNat_nonneg _))
      have htake : item.quantity.toNat = 0 := Int.toNat_of_nonpos hq
      simp [claimLoop, hnotshort, htake, ih (fun i hi => h i (List.mem_cons_of_mem item hi))]

/-! Helper lemmas for the price-invariant analysis. -/

/-- The write-phase row update of CreateBooking keeps the row id and the
row price. -/
theorem reserveTicket_id_price (sids : List Nat) (bid uid : Nat) (t : Ticket) :
    (reserveTicket sids bid uid t).id = t.id ∧
      (reserveTicket sids bid uid t).price = t.price := by
  unfold reserveTicket
  split <;> exact ⟨rfl, rfl⟩

/-- The availability query answers with rows of the queried store. -/
theorem findAvailable_sublist (db : DB) (eid : Nat) (ty : String) :
    (findAvailableByEventID db eid ty).Sublist db.tickets := by
  unfold findAvailableByEventID
  by_cases h : (ty == "") = true
  · simp only [h, if_true]
    exact List.filter_sublist db.tickets
  · simp only [h, if_false]
    exact (List.filter_sublist _).trans (List.filter_sublist db.tickets)

/-- Every row the availability query returns is an available row of the
store for the queried event, of the queried type when that type is
non-empty. -/
theorem mem_findAvailable (db : DB) (eid : Nat) (ty : String) (t : Ticket)
    (ht : t ∈ findAvailableByEventID db eid ty) :
    t ∈ db.tickets ∧ t.status = "available" ∧ t.eventId = eid ∧
      (ty ≠ "" → t.typ = ty) := by
  unfold findAvailableByEventID at ht
  by_cases h0 : (ty == "") = true
  · simp only [h0, if_true] at ht
    obtain ⟨hmem, hp⟩ := List.mem_filter.mp ht
    rw [Bool.and_eq_true] at hp
    exact ⟨hmem, by simpa using hp.2, by simpa using hp.1,
      fun hne => absurd (by simpa using h0) hne⟩
  · simp only [h0, if_false] at ht
    obtain ⟨hbase, hty⟩ := List.mem_filter.mp ht
    obtain ⟨hmem, hp⟩ := List.mem_filter.mp hbase
    rw [Bool.and_eq_true] at hp
    exact ⟨hmem, by simpa using hp.2, by simpa using hp.1, fun _ => by simpa using hty⟩

/-- Every selected ticket of a successful line-item loop came from the
availability query of one of the line items. -/
theorem claimLoop_sel_from_avail (db : DB) (eid : Nat) :
    ∀ (items : List LineItem) (sel : List Ticket), claimLoop db eid items = .ok sel →
      ∀ t ∈ sel, ∃ item ∈ items, t ∈ findAvailableByEventID db eid item.typ := by
  intro items
  induction items with
  | nil =>
      intro sel h t ht
      have hsel : sel = [] := by simpa [claimLoop] using h.symm
      subst hsel
      exact absurd ht (List.not_mem_nil t)
  | cons item rest ih =>
      intro sel h t ht
      unfold claimLoop at h
      by_cases hs : ((findAvailableByEventID db eid item.typ).length : Int) < item.quantity
      · rw [if_pos hs] at h
        exact absurd h (by simp)
      · rw [if_neg hs] at h
        cases hr : claimLoop db eid rest with
        | error e => rw [hr] at h; exact absurd h (by simp)
        | ok ts =>
            rw [hr] at h
            have hsel : (findAvailableByEventID db eid item.typ).take item.quantity.toNat
                ++ ts = sel := by
              simpa using h
            rcases List.mem_append.mp (hsel ▸ ht) with h1 | h2
            · exact ⟨item, List.mem_cons_self item rest,
                List.take_subset item.quantity.toNat _ h1⟩
            · obtain ⟨it, hmem, hin⟩ := ih ts hr t h2
              exact ⟨it, List.mem_cons_of_mem item hmem, hin⟩

/-- Under primary-key uniqueness of tickets and pairwise-distinct
non-empty line-item types, the rows selected by a successful line-item
loop carry pairwise-distinct ids: within one line item the selection is a
sublist of the table, and two different line items select rows of
different types. -/
theorem claimLoop_sel_ids_nodup (db : DB) (eid : Nat)
    (hids : (db.tickets.map (fun t => t.id)).Nodup) :
    ∀ (items : List LineItem) (sel : List Ticket), claimLoop db eid items = .ok sel →
      (items.map (fun i => i.typ)).Nodup → (∀ item ∈ items, item.typ ≠ "") →
      (sel.map (fun t => t.id)).Nodup := by
  intro items
  induction items with
  | nil =>
      intro sel h _ _
      have hsel : sel = [] := by simpa [claimLoop] using h.symm
      subst hsel
      exact List.nodup_nil
  | cons item rest ih =>
      intro sel h hnd hne
      unfold claimLoop at h
      by_cases hs : ((findAvailableByEventID db eid item.typ).length : Int) < item.quantity
      · rw [if_pos hs] at h
        exact absurd h (by simp)
      · rw [if_neg hs] at h
        cases hr : claimLoop db eid rest with
        | error e => rw [hr] at h; exact absurd h (by simp)
        | ok ts =>
            rw [hr] at h
            have hsel : (findAvailableByEventID db eid item.typ).take item.quantity.toNat
                ++ ts = sel := by
              simpa using h
            subst hsel
            rw [List.map_append, List.nodup_append]
            have htake : ((findAvailableByEventID db eid item.typ).take
                item.quantity.toNat).Sublist db.tickets :=
              (List.take_sublist _ _).trans (findAvailable_sublist db eid item.typ)
            refine ⟨hids.sublist (htake.map (fun t => t.id)), ?_, ?_⟩
            · exact ih ts hr (List.nodup_cons.mp hnd).2
                (fun i hi => hne i (List.mem_cons_of_mem item hi))
            · intro x hx1 hx2
              obtain ⟨t1, ht1, hx1id⟩ := List.mem_map.mp hx1
              obtain ⟨t2, ht2, hx2id⟩ := List.mem_map.mp hx2
              have ht1avail := List.take_subset item.quantity.toNat _ ht1
              obtain ⟨ht1db, -, -, ht1ty⟩ := mem_findAvailable db eid item.typ t1 ht1avail
              obtain ⟨it, hitmem, ht2avail⟩ := claimLoop_sel_from_avail db eid rest ts hr t2 ht2
              obtain ⟨ht2db, -, -, ht2ty⟩ := mem_findAvailable db eid it.typ t2 ht2avail
              have heq : t1 = t2 :=
                List.inj_on_of_nodup_map hids ht1db ht2db (hx1id.trans hx2id.symm)
              have hty1 : t1.typ = item.typ := ht1ty (hne item (List.mem_cons_self item rest))
              have hty2 : t2.typ = it.typ := ht2ty (hne it (List.mem_cons_of_mem item hitmem))
              have : item.typ = it.typ := by rw [← hty1, heq, hty2]
              have hnotin : item.typ ∉ rest.map (fun i => i.typ) := (List.nodup_cons.mp hnd).1
              exact hnotin (this ▸ List.mem_map_of_mem (fun i => i.typ) hitmem)

/-- Rows of the store whose id is among the ids of a duplicate-free
selection of rows of the store are a permutation of the selection. -/
theorem filter_sel_perm (l sel : List Ticket)
    (hlid : (l.map (fun t => t.id)).Nodup)
    (hselid : (sel.map (fun t => t.id)).Nodup)
    (hsub : ∀ t ∈ sel, t ∈ l) :
    (l.filter (fun t => (sel.map (fun s => s.id)).contains t.id)).Perm sel := by
  refine (List.perm_ext_iff_of_nodup
    ((List.Nodup.of_map (fun t => t.id) hlid).filter _)
    (List.Nodup.of_map (fun t => t.id) hselid)).mpr ?_
  intro t
  constructor
  · intro htf
    obtain ⟨htl, hc⟩ := List.mem_filter.mp htf
    obtain ⟨s, hs, hsid⟩ := List.mem_map.mp (List.elem_iff.mp hc)
    have : s = t := List.inj_on_of_nodup_map hlid (hsub s hs) htl hsid
    rwa [← this]
  · intro hts
    refine List.mem_filter.mpr ⟨hsub t hts, ?_⟩
    exact List.elem_iff.mpr (List.mem_map_of_mem (fun s => s.id) hts)

/-- The assigned-price sum is unchanged by a row rewrite that preserves
ownership of the given booking id and row prices. -/
theorem ticketsAssignedSum_map_congr (ts : List Ticket) (f : Ticket → Ticket) (bid : Nat)
    (h : ∀ t ∈ ts, ((f t).bookingId == bid) = (t.bookingId == bid) ∧ (f t).price = t.price) :
    ticketsAssignedSum (ts.map f) bid = ticketsAssignedSum ts bid := by
  unfold ticketsAssignedSum
  rw [List.filter_map]
  rw [List.filter_congr (fun t ht => by
    show ((f t).bookingId == bid) = (t.bookingId == bid)
    exact (h t ht).1)]
  rw [List.map_map]
  exact congrArg List.sum (List.map_congr_left (fun t ht =>
    (h t (List.mem_of_mem_filter ht)).2))

/-- Selling the tickets of one booking changes no row's owning booking id
and no row's price. -/
theorem applyTicketStatus_sold_pres (id K : Nat) (t : Ticket) :
    ((applyTicketStatus id "sold" t).bookingId == K) = (t.bookingId == K) ∧
      (applyTicketStatus id "sold" t).price = t.price := by
  unfold applyTicketStatus
  have hns : (("sold" : String) == "available") = false := by decide
  by_cases hm : (t.bookingId == id) = true <;> simp [hm, hns]

/-- Releasing the tickets of booking id changes no row's ownership of a
booking other than id and the nil id, and no row's price. -/
theorem applyTicketStatus_avail_pres (id K : Nat) (t : Ticket)
    (hK0 : K ≠ 0) (hKid : K ≠ id) :
    ((applyTicketStatus id "available" t).bookingId == K) = (t.bookingId == K) ∧
      (applyTicketStatus id "available" t).price = t.price := by
  unfold applyTicketStatus
  by_cases hm : (t.bookingId == id) = true
  · have hmi : t.bookingId = id := by simpa using hm
    have h1 : ((0 : Nat) == K) = false := by simpa using Ne.symm hK0
    have h2 : (t.bookingId == K) = false := by rw [hmi]; simpa using Ne.symm hKid
    simp [hm, h1, h2]
  · simp [hm]

/-- Ids of the booking table are unchanged by a status rewrite. -/
theorem map_ids_applyBookingStatus (l : List Booking) (id : Nat) (st : String) :
    (l.map (applyBookingStatus id st)).map (fun b => b.id) = l.map (fun b => b.id) := by
  rw [List.map_map]
  exact List.map_congr_left (fun bk _ => applyBookingStatus_id id st bk)

/-- Ids of the ticket table are unchanged by a ticket-status rewrite. -/
theorem map_ids_applyTicketStatus (l : List Ticket) (bid : Nat) (ts : String) :
    (l.map (applyTicketStatus bid ts)).map (fun t => t.id) = l.map (fun t => t.id) := by
  rw [List.map_map]
  exact List.map_congr_left (fun t _ => applyTicketStatus_ticketId bid ts t)

/-- UpdateBookingStatus preserves well-formedness (and with it the price
invariant) when the requested transition follows the table: confirming a
pending booking keeps its assigned set and prices, and a release moves the
booking into a terminal state where the invariant asks nothing, touching
no other booking's assigned set. -/
theorem wf_updateBookingStatus (db : DB) (id : Nat) (target : String) (hwf : WF db)
    (hv : validOp db (.updateStatus id target) = true) :
    WF (updateBookingStatus db id target).1 := by
  obtain ⟨hbnd, htnd, hb0, hav0, hpinv⟩ := hwf
  cases hfind : db.bookings.find? (fun b => b.id == id) with
  | none =>
      simp only [updateBookingStatus, hfind]
      exact ⟨hbnd, htnd, hb0, hav0, hpinv⟩
  | some b =>
      have hallow : allowedTransition b.status target = true := by
        simpa [validOp, hfind] using hv
      have hcases : (b.status = "pending" ∧ (target = "confirmed" ∨ target = "cancelled")) ∨
          (b.status = "confirmed" ∧ (target = "refunded" ∨ target = "cancelled")) := by
        unfold allowedTransition at hallow
        simp only [Bool.or_eq_true, Bool.and_eq_true, beq_iff_eq] at hallow
        tauto
      have htar : target = "confirmed" ∨ target = "cancelled" ∨ target = "refunded" := by
        rcases hcases with ⟨-, h | h⟩ | ⟨-, h | h⟩ <;> simp [h]
      have hbmem : b ∈ db.bookings := List.mem_of_find?_eq_some hfind
      have hbid : b.id = id := by simpa using List.find?_some hfind
      -- preservation of per-row ownership and price at the relevant ids
      have hpres : ∀ K : Nat, K ≠ 0 → (target = "confirmed" ∨ K ≠ id) →
          ∀ t ∈ db.tickets,
            ((applyTicketStatus id (ticketStatusFor target) t).bookingId == K) =
              (t.bookingId == K) ∧
            (applyTicketStatus id (ticketStatusFor target) t).price = t.price := by
        intro K hK0 hKcase t _
        rcases htar with h | h | h
        · rw [h]
          exact applyTicketStatus_sold_pres id K t
        · rcases hKcase with hc | hKid
          · rw [hc] at h; exact absurd h (by decide)
          · rw [h]
            exact applyTicketStatus_avail_pres id K t hK0 hKid
        · rcases hKcase with hc | hKid
          · rw [hc] at h; exact absurd h (by decide)
          · rw [h]
            exact applyTicketStatus_avail_pres id K t hK0 hKid
      simp only [updateBookingStatus, hfind]
      refine ⟨?_, ?_, ?_, ?_, ?_⟩
      · rw [map_ids_applyBookingStatus]
        exact hbnd
      · rw [map_ids_applyTicketStatus]
        exact htnd
      · intro bk' hbk'
        obtain ⟨bk, hbk, rfl⟩ := List.mem_map.mp hbk'
        rw [applyBookingStatus_id]
        exact hb0 bk hbk
      · intro x hx
        obtain ⟨t, ht, rfl⟩ := List.mem_map.mp hx
        unfold applyTicketStatus
        by_cases hm : (t.bookingId == id) = true
        · by_cases hts : (ticketStatusFor target == "available") = true
          · intro _
            simp [hm, hts]
          · intro hst
            have : ticketStatusFor target = "available" := by
              simpa [hm, hts] using hst
            exact absurd (by simpa using this) hts
        · simp only [hm]
          simp only [Bool.false_eq_true, if_false]
          exact hav0 t ht
      · intro bk' hbk' hstat'
        obtain ⟨bk, hbk, rfl⟩ := List.mem_map.mp hbk'
        by_cases hbkid : (bk.id == id) = true
        · have hbkid' : bk.id = id := by simpa using hbkid
          have hbkb : bk = b :=
            List.inj_on_of_nodup_map hbnd hbk hbmem (by rw [hbkid', hbid])
          have hg : applyBookingStatus id target bk = { bk with status := target } := by
            unfold applyBookingStatus
            rw [if_pos hbkid]
          rw [hg] at hstat' ⊢
          have htgt : target = "confirmed" := by
            rcases hstat' with h | h <;> rcases htar with h' | h' | h' <;>
              first
                | exact h'
                | (rw [h'] at h; simp at h)
          have hpend : b.status = "pending" := by
            rcases hcases with ⟨h, -⟩ | ⟨-, h | h⟩
            · exact h
            · rw [htgt] at h; exact absurd h (by decide)
            · rw [htgt] at h; exact absurd h (by decide)
          show ticketsAssignedSum
              (db.tickets.map (applyTicketStatus id (ticketStatusFor target))) bk.id = _
          rw [ticketsAssignedSum_map_congr db.tickets _ bk.id
            (fun t ht => hpres bk.id (hb0 bk hbk) (Or.inl htgt) t ht)]
          exact hpinv bk hbk (Or.inl (by rw [hbkb, hpend]))
        · have hbkid' : bk.id ≠ id := by simpa using hbkid
          have hg : applyBookingStatus id target bk = bk := by
            unfold applyBookingStatus
            rw [if_neg hbkid]
          rw [hg] at hstat' ⊢
          show ticketsAssignedSum
              (db.tickets.map (applyTicketStatus id (ticketStatusFor target))) bk.id = _
          rw [ticketsAssignedSum_map_congr db.tickets _ bk.id
            (fun t ht => hpres bk.id (hb0 bk hbk) (Or.inr hbkid') t ht)]
          exact hpinv bk hbk hstat'

/-- After the write phase of a creation, the sum of the prices of the
rows owned by the fresh booking id is the sum of the selected rows'
prices, provided ticket ids are unique, the selected rows are rows of the
table with pairwise-distinct ids, and no row was owned by the fresh id
before. -/
theorem ticketsAssignedSum_reserve (l sel : List Ticket) (bid uid : Nat)
    (hlid : (l.map (fun t => t.id)).Nodup)
    (hselid : (sel.map (fun t => t.id)).Nodup)
    (hsub : ∀ t ∈ sel, t ∈ l)
    (hfresh : ∀ t ∈ l, t.bookingId ≠ bid) :
    ticketsAssignedSum (l.map (reserveTicket (sel.map (fun s => s.id)) bid uid)) bid =
      (sel.map (fun t => t.price)).sum := by
  have hcong : ∀ t ∈ l,
      (((fun x : Ticket => x.bookingId == bid) ∘
          reserveTicket (sel.map (fun s => s.id)) bid uid) t) =
        ((sel.map (fun s => s.id)).contains t.id) := by
    intro t ht
    show ((reserveTicket (sel.map (fun s => s.id)) bid uid t).bookingId == bid) = _
    unfold reserveTicket
    cases hcb : (sel.map (fun s => s.id)).contains t.id with
    | true =>
        rw [if_pos rfl]
        simp
    | false =>
        rw [if_neg Bool.false_ne_true]
        simpa using hfresh t ht
  have hprice : List.map ((fun x : Ticket => x.price) ∘
        reserveTicket (sel.map (fun s => s.id)) bid uid)
      (l.filter (fun t => (sel.map (fun s => s.id)).contains t.id)) =
      List.map (fun x : Ticket => x.price)
        (l.filter (fun t => (sel.map (fun s => s.id)).contains t.id)) :=
    List.map_congr_left (fun t _ => by
      show (reserveTicket (sel.map (fun s => s.id)) bid uid t).price = t.price
      exact (reserveTicket_id_price (sel.map (fun s => s.id)) bid uid t).2)
  unfold ticketsAssignedSum
  rw [List.filter_map, List.filter_congr hcong, List.map_map, hprice]
  exact ((filter_sel_perm l sel hlid hselid hsub).map (fun t => t.price)).sum_eq

/-- CreateBooking preserves well-formedness when the new booking id is
fresh and non-nil and the request's line-item types are pairwise distinct
and non-empty: the failing paths change nothing, and the success path
reserves previously-available (hence unowned) units for the new booking,
whose total price is exactly the sum of the claimed units' prices. -/
theorem wf_createBooking (db : DB) (now : Int) (bid uid : Nat) (req : CreateBookingRequest)
    (hwf : WF db) (hv : validOp db (.create now bid uid req) = true) :
    WF (createBooking db now bid uid req).1 := by
  obtain ⟨hbnd, htnd, hb0, hav0, hpinv⟩ := hwf
  have hv' := hv
  simp only [validOp, Bool.and_eq_true, List.all_eq_true, bne_iff_ne,
    decide_eq_true_eq] at hv'
  obtain ⟨⟨⟨⟨hbid0, hfreshB⟩, hfreshT⟩, hneT⟩, hndT⟩ := hv'
  unfold createBooking createBookingAt
  cases hev : db.events.find? (fun e => e.id == req.eventId) with
  | none => exact ⟨hbnd, htnd, hb0, hav0, hpinv⟩
  | some event =>
      by_cases hact : (event.status != "active") = true
      · simp only [hact, if_true]
        exact ⟨hbnd, htnd, hb0, hav0, hpinv⟩
      · simp only [hact, Bool.false_eq_true, if_false]
        by_cases hstart : event.startDate < now
        · rw [if_pos hstart]
          exact ⟨hbnd, htnd, hb0, hav0, hpinv⟩
        · rw [if_neg hstart]
          cases hcl : claimLoop db req.eventId req.tickets with
          | error e => exact ⟨hbnd, htnd, hb0, hav0, hpinv⟩
          | ok sel =>
              have hselmem : ∀ t ∈ sel, t ∈ db.tickets ∧ t.status = "available" := by
                intro t ht
                obtain ⟨item, -, hav⟩ :=
                  claimLoop_sel_from_avail db req.eventId req.tickets sel hcl t ht
                obtain ⟨hm, hs, -, -⟩ := mem_findAvailable db req.eventId item.typ t hav
                exact ⟨hm, hs⟩
              have hselnd : (sel.map (fun t => t.id)).Nodup :=
                claimLoop_sel_ids_nodup db req.eventId htnd req.tickets sel hcl hndT
                  (fun i hi => hneT i hi)
              have hsel0 : ∀ t ∈ sel, t.bookingId = 0 := fun t ht =>
                hav0 t (hselmem t ht).1 (hselmem t ht).2
              have hsidspres : ∀ t ∈ db.tickets,
                  ((sel.map (fun s => s.id)).contains t.id) = true → t ∈ sel := by
                intro t ht hc
                obtain ⟨s, hs, hsid⟩ := List.mem_map.mp (List.elem_iff.mp hc)
                have heq : s = t :=
                  List.inj_on_of_nodup_map htnd ((hselmem s hs).1) ht hsid
                rwa [← heq]
              refine ⟨?_, ?_, ?_, ?_, ?_⟩
              · show ((db.bookings ++
                    [(⟨bid, uid, req.eventId, "pending",
                      (sel.map (fun t => t.price)).sum⟩ : Booking)]).map
                    (fun b => b.id)).Nodup
                rw [List.map_append, List.nodup_append]
                refine ⟨hbnd, by simp, ?_⟩
                intro a ha hb
                obtain ⟨b', hb', rfl⟩ := List.mem_map.mp ha
                have : b'.id = bid := by simpa using hb
                exact hfreshB b' hb' this
              · show ((db.tickets.map
                    (reserveTicket (sel.map (fun t => t.id)) bid uid)).map
                      (fun t => t.id)).Nodup
                have hideq : List.map ((fun x : Ticket => x.id) ∘
                    reserveTicket (sel.map (fun t => t.id)) bid uid) db.tickets =
                    List.map (fun x : Ticket => x.id) db.tickets :=
                  List.map_congr_left (fun t _ => by
                    show (reserveTicket (sel.map (fun t => t.id)) bid uid t).id = t.id
                    exact (reserveTicket_id_price (sel.map (fun s => s.id)) bid uid t).1)
                rw [List.map_map, hideq]
                exact htnd
              · show ∀ x ∈ db.bookings ++
                    [(⟨bid, uid, req.eventId, "pending",
                      (sel.map (fun t => t.price)).sum⟩ : Booking)], x.id ≠ 0
                intro x hx
                rcases List.mem_append.mp hx with hold | hnew
                · exact hb0 x hold
                · have hxeq : x = ⟨bid, uid, req.eventId, "pending",
                      (sel.map (fun t => t.price)).sum⟩ := by
                    simpa using hnew
                  rw [hxeq]
                  exact hbid0
              · show ∀ x ∈ db.tickets.map (reserveTicket (sel.map (fun t => t.id)) bid uid),
                    x.status = "available" → x.bookingId = 0
                intro x hx
                obtain ⟨t, ht, rfl⟩ := List.mem_map.mp hx
                unfold reserveTicket
                cases hcb : (sel.map (fun s => s.id)).contains t.id with
                | true =>
                    rw [if_pos rfl]
                    intro hst
                    simp at hst
                | false =>
                    rw [if_neg Bool.false_ne_true]
                    exact hav0 t ht
              · show ∀ bk' ∈ db.bookings ++
                    [(⟨bid, uid, req.eventId, "pending",
                      (sel.map (fun t => t.price)).sum⟩ : Booking)],
                    (bk'.status = "pending" ∨ bk'.status = "confirmed") →
                    ticketsAssignedSum
                      (db.tickets.map (reserveTicket (sel.map (fun t => t.id)) bid uid))
                      bk'.id = bk'.totalPrice
                intro bk' hmem' hstat'
                rcases List.mem_append.mp hmem' with hold | hnew
                · rw [ticketsAssignedSum_map_congr db.tickets _ bk'.id (fun t ht =>
                    ⟨?_, (reserveTicket_id_price (sel.map (fun s => s.id)) bid uid t).2⟩)]
                  · exact hpinv bk' hold hstat'
                  · unfold reserveTicket
                    cases hcb : (sel.map (fun s => s.id)).contains t.id with
                    | true =>
                        rw [if_pos rfl]
                        have h1 : (bid == bk'.id) = false := by
                          simpa using Ne.symm (hfreshB bk' hold)
                        have h2 : (t.bookingId == bk'.id) = false := by
                          rw [hsel0 t (hsidspres t ht hcb)]
                          simpa using Ne.symm (hb0 bk' hold)
                        rw [h2]
                        exact h1
                    | false =>
                        rw [if_neg Bool.false_ne_true]
                · have hbk' : bk' = ⟨bid, uid, req.eventId, "pending",
                      (sel.map (fun t => t.price)).sum⟩ := by
                    simpa using hnew
                  rw [hbk']
                  exact ticketsAssignedSum_reserve db.tickets sel bid uid htnd hselnd
                    (fun t ht => (hselmem t ht).1) hfreshT

/-- Every table-valid operation preserves well-formedness. -/
theorem wf_step (db : DB) (op : Op) (hwf : WF db) (hv : validOp db op = true) :
    WF (applyOp db op) := by
  cases op with
  | create now bid uid req => exact wf_createBooking db now bid uid req hwf hv
  | updateStatus id target => exact wf_updateBookingStatus db id target hwf hv
  | cancel id => exact wf_updateBookingStatus db id "cancelled" hwf hv

/-! Theorems for the claims. -/

/-- C1: a CreateBooking call on a sellable event in which some line item
requests more units than are available for its type fails with the Go
error naming the (first) short ticket type, and the state after the call
is identical to the state before it: no booking row is persisted and no
ticket row changes (the write phase of the operation only runs after every
line item's availability check has passed). -/
theorem c1InsufficientInventoryRollback (db : DB) (now : Int) (bid uid : Nat)
    (req : CreateBookingRequest) (ev : Event)
    (hev : db.events.find? (fun e => e.id == req.eventId) = some ev)
    (hact : ev.status = "active")
    (hstart : ¬ ev.startDate < now)
    (hshort : ∃ item ∈ req.tickets,
      ((findAvailableByEventID db req.eventId item.typ).length : Int) < item.quantity) :
    (createBooking db now bid uid req).1 = db ∧
    ∃ item ∈ req.tickets,
      ((findAvailableByEventID db req.eventId item.typ).length : Int) < item.quantity ∧
      (createBooking db now bid uid req).2 =
        .error ("not enough tickets available for type " ++ item.typ) := by
  obtain ⟨item, hmem, hshort', herr⟩ := claimLoop_error_of_short db req.eventId req.tickets hshort
  refine ⟨?_, item, hmem, hshort', ?_⟩ <;>
    simp [createBooking, createBookingAt, hev, hact, hstart, herr]

/-- C1, witnessed: one available VIP unit, a request for two. -/
theorem c1InsufficientInventoryRollbackWitness :
    dbOneVip.events.find? (fun e => e.id == 1) = some { id := 1, status := "active", startDate := 10 } ∧
    (createBooking dbOneVip 0 201 301
      { eventId := 1, tickets := [{ typ := "VIP", quantity := 2 }] }).1 = dbOneVip :=
  ⟨by decide,
   (c1InsufficientInventoryRollback dbOneVip 0 201 301
      { eventId := 1, tickets := [{ typ := "VIP", quantity := 2 }] }
      { id := 1, status := "active", startDate := 10 }
      (by decide) (by decide) (by decide)
      ⟨{ typ := "VIP", quantity := 2 }, by decide, by decide⟩).1⟩

/-- C10: on an active, not-yet-started event, a request whose (non-empty)
line items all carry quantity at most zero passes the handler validation
and succeeds: a pending booking with total price 0 is persisted, no ticket
row changes, and no ticket unit is owned by the new booking — the
quantity-positive precondition is not enforced at the public interface. -/
theorem c10NonPositiveQuantities (db : DB) (now : Int) (bid uid : Nat)
    (req : CreateBookingRequest) (ev : Event)
    (hev : db.events.find? (fun e => e.id == req.eventId) = some ev)
    (hact : ev.status = "active")
    (hstart : ¬ ev.startDate < now)
    (hq : ∀ item ∈ req.tickets, item.quantity ≤ 0)
    (hne : req.tickets ≠ [])
    (heid : req.eventId ≠ 0)
    (hfresh : ∀ t ∈ db.tickets, t.bookingId ≠ bid) :
    validateCreateBookingRequest req = true ∧
    (createBooking db now bid uid req).2 =
      .ok { id := bid, userId := uid, eventId := req.eventId, status := "pending", totalPrice := 0 } ∧
    (createBooking db now bid uid req).1.bookings =
      db.bookings ++
        [{ id := bid, userId := uid, eventId := req.eventId, status := "pending", totalPrice := 0 }] ∧
    (createBooking db now bid uid req).1.tickets = db.tickets ∧
    (createBooking db now bid uid req).1.tickets.filter (fun t => t.bookingId == bid) = [] := by
  have hloop := claimLoop_ok_nil_of_nonpos db req.eventId req.tickets hq
  have htickets : db.tickets.map (reserveTicket [] bid uid) = db.tickets := by
    have h1 : db.tickets.map (reserveTicket [] bid uid) = db.tickets.map id :=
      List.map_congr_left (fun t _ => by simp [reserveTicket])
    rw [h1, List.map_id]
  refine ⟨?_, ?_, ?_, ?_, ?_⟩
  · simp [validateCreateBookingRequest, hne, heid]
  · simp [createBooking, createBookingAt, hev, hact, hstart, hloop]
  · simp [createBooking, createBookingAt, hev, hact, hstart, hloop]
  · simpa [createBooking, createBookingAt, hev, hact, hstart, hloop] using htickets
  · have : (createBooking db now bid uid req).1.tickets = db.tickets := by
      simpa [createBooking, createBookingAt, hev, hact, hstart, hloop] using htickets
    rw [this]
    exact List.filter_eq_nil_iff.mpr (fun t ht => by
      simpa using hfresh t ht)

/-- C10, witnessed: a two-item request with quantities 0 and -2. -/
theorem c10NonPositiveQuantitiesWitness :
    (∀ item ∈ reqNonPositive.tickets, item.quantity ≤ 0) ∧
    (createBooking dbOneVip 0 201 301 reqNonPositive).2 =
      .ok { id := 201, userId := 301, eventId := 1, status := "pending", totalPrice := 0 } :=
  ⟨by decide,
   (c10NonPositiveQuantities dbOneVip 0 201 301 reqNonPositive
      { id := 1, status := "active", startDate := 10 }
      (by decide) (by decide) (by decide) (by decide) (by decide) (by decide)
      (by decide)).2.1⟩

/-- C2: the no-oversell property fails on the code.  With exactly one
available VIP unit, two CreateBooking calls that each request one unit and
both execute their availability read before either write commits (the
SELECT in FindAvailableByEventID takes no row lock, and the repository
calls inside the gorm Transaction closure run on the base connection, so
under the default read-committed isolation both commits succeed, the
second row update overwriting the first) both return success: two pending
bookings are persisted for the single unit and neither caller receives an
insufficient-inventory error, contradicting the claim that the excess call
must be rejected and only N units reserved. -/
theorem c2OversellAtConcreteInput :
    (findAvailableByEventID dbOneVip 1 "VIP").length = 1 ∧
    ((createBookingAt dbOneVip dbOneVip 0 201 301 reqOneVip).2.isOk = true ∧
     (createBookingAt dbOneVip
        (createBookingAt dbOneVip dbOneVip 0 201 301 reqOneVip).1 0 202 302 reqOneVip).2.isOk = true) ∧
    (createBookingAt dbOneVip
       (createBookingAt dbOneVip dbOneVip 0 201 301 reqOneVip).1 0 202 302 reqOneVip).1.bookings.length = 2 ∧
    ((createBookingAt dbOneVip
        (createBookingAt dbOneVip dbOneVip 0 201 301 reqOneVip).1 0 202 302 reqOneVip).1.bookings.filter
      (fun b => b.status == "pending")).length = 2 ∧
    (createBookingAt dbOneVip
       (createBookingAt dbOneVip dbOneVip 0 201 301 reqOneVip).1 0 202 302 reqOneVip).1.tickets.length = 1 := by
  decide

/-- C3 counterexample: a booking in the terminal state cancelled, asked to
move to confirmed (an edge the transition table forbids), is not left
unchanged: UpdateBookingStatus succeeds and the stored status becomes
confirmed. -/
theorem c3TransitionTableCounterexample :
    (updateBookingStatus dbCancelledBooking 1 "confirmed").2.isOk = true ∧
    (updateBookingStatus dbCancelledBooking 1 "confirmed").1 ≠ dbCancelledBooking ∧
    ((updateBookingStatus dbCancelledBooking 1 "confirmed").1.bookings.map
      (fun b => b.status)) = ["confirmed"] := by
  decide

/-- C3 amended: UpdateBookingStatus applies any requested target status
unconditionally whenever the booking exists — there is no transition-table
check.  The booking rows with the given id get the target status, every
ticket of the booking gets the status derived from the target (sold for
confirmed, available with cleared owner fields for cancelled or refunded,
reserved otherwise), and the call returns success. -/
theorem c3UnconditionalUpdate (db : DB) (id : Nat) (status : String) (b : Booking)
    (hfind : db.bookings.find? (fun bk => bk.id == id) = some b) :
    (updateBookingStatus db id status).2 = .ok { b with status := status } ∧
    (updateBookingStatus db id status).1.bookings =
      db.bookings.map (fun bk => if bk.id == id then { bk with status := status } else bk) ∧
    (updateBookingStatus db id status).1.tickets =
      db.tickets.map (applyTicketStatus id (ticketStatusFor status)) := by
  simp [updateBookingStatus, hfind, applyBookingStatus]

/-- C3 amended, witnessed at the concrete cancelled booking. -/
theorem c3UnconditionalUpdateWitness :
    dbCancelledBooking.bookings.find? (fun bk => bk.id == 1) =
      some { id := 1, userId := 5, eventId := 9, status := "cancelled", totalPrice := 100 } ∧
    (updateBookingStatus dbCancelledBooking 1 "confirmed").2 =
      .ok { id := 1, userId := 5, eventId := 9, status := "confirmed", totalPrice := 100 } :=
  ⟨by decide,
   (c3UnconditionalUpdate dbCancelledBooking 1 "confirmed"
      { id := 1, userId := 5, eventId := 9, status := "cancelled", totalPrice := 100 }
      (by decide)).1⟩

/-- C4: consuming the same payment.completed event twice for a pending
booking produces the same end state as consuming it once.  The first
delivery confirms the booking and sells its tickets; the second rewrites
every touched row with the values it already holds, so the stores are
equal.  The only repeated output is a second booking.updated publication,
and the notification dispatcher does not react to that event type at all,
so no duplicate notification side effect arises. -/
theorem c4PaymentCompletedIdempotent (db : DB) (bid : Nat) (b : Booking)
    (hfind : db.bookings.find? (fun bk => bk.id == bid) = some b)
    (_hpending : b.status = "pending") :
    (processPaymentEvent (processPaymentEvent db "payment.completed" bid).1
        "payment.completed" bid).1 =
      (processPaymentEvent db "payment.completed" bid).1 ∧
    ((processPaymentEvent db "payment.completed" bid).1.bookings.find?
        (fun bk => bk.id == bid)).map (fun bk => bk.status) = some "confirmed" ∧
    (processPaymentEvent db "payment.completed" bid).1.tickets =
      db.tickets.map (applyTicketStatus bid "sold") ∧
    handleTicketEventKnown "booking.updated" = false := by
  have hstate : ∀ d : DB, (processPaymentEvent d "payment.completed" bid).1 =
      (updateBookingStatus d bid "confirmed").1 := by
    intro d; simp [processPaymentEvent]
  have hsold : ticketStatusFor "confirmed" = "sold" := rfl
  refine ⟨?_, ?_, ?_, by rfl⟩
  · simp only [hstate]
    exact updateBookingStatus_state_idem db bid "confirmed"
  · rw [hstate]
    have hb : (b.id == bid) = true := by
      have := List.find?_some hfind
      simpa using this
    have hfind2 : ((updateBookingStatus db bid "confirmed").1).bookings.find?
        (fun bk => bk.id == bid) = some (applyBookingStatus bid "confirmed" b) := by
      simp only [updateBookingStatus, hfind]
      rw [find?_map_applyBookingStatus, hfind]
      rfl
    rw [hfind2]
    simp [applyBookingStatus, hb]
  · rw [hstate]
    simp [updateBookingStatus, hfind, hsold]

/-- C4, witnessed on the pending booking with one reserved ticket. -/
theorem c4PaymentCompletedIdempotentWitness :
    dbPendingBooking.bookings.find? (fun bk => bk.id == 201) =
      some { id := 201, userId := 301, eventId := 1, status := "pending", totalPrice := 100 } ∧
    (processPaymentEvent (processPaymentEvent dbPendingBooking "payment.completed" 201).1
        "payment.completed" 201).1 =
      (processPaymentEvent dbPendingBooking "payment.completed" 201).1 :=
  ⟨by decide,
   (c4PaymentCompletedIdempotent dbPendingBooking 201
      { id := 201, userId := 301, eventId := 1, status := "pending", totalPrice := 100 }
      (by decide) (by decide)).1⟩

/-- C5: when a booking is moved to cancelled or refunded, every ticket row
owned by it at that moment is rewritten to status available with both
owner identities cleared to the nil uuid; CancelBooking is exactly the
cancelled instance of this state change. -/
theorem c5ReleaseClearsOwnership (db : DB) (bid : Nat) (st : String) (b : Booking)
    (hfind : db.bookings.find? (fun bk => bk.id == bid) = some b)
    (hst : st = "cancelled" ∨ st = "refunded") :
    (∀ t ∈ db.tickets, t.bookingId = bid →
      ∃ t' ∈ (updateBookingStatus db bid st).1.tickets,
        t'.id = t.id ∧ t'.status = "available" ∧ t'.userId = 0 ∧ t'.bookingId = 0) ∧
    (cancelBooking db bid).1 = (updateBookingStatus db bid "cancelled").1 := by
  constructor
  · intro t ht hown
    have hts : ticketStatusFor st = "available" := by
      rcases hst with h | h <;> subst h <;> rfl
    have htk : (updateBookingStatus db bid st).1.tickets =
        db.tickets.map (applyTicketStatus bid "available") := by
      simp [updateBookingStatus, hfind, hts]
    refine ⟨applyTicketStatus bid "available" t, ?_, ?_⟩
    · rw [htk]
      exact List.mem_map_of_mem _ ht
    · simp [applyTicketStatus, hown]
  · rfl

/-- C5, witnessed on the pending booking with one reserved ticket. -/
theorem c5ReleaseClearsOwnershipWitness :
    dbPendingBooking.bookings.find? (fun bk => bk.id == 201) =
      some { id := 201, userId := 301, eventId := 1, status := "pending", totalPrice := 100 } ∧
    (∀ t ∈ dbPendingBooking.tickets, t.bookingId = 201 →
      ∃ t' ∈ (updateBookingStatus dbPendingBooking 201 "cancelled").1.tickets,
        t'.id = t.id ∧ t'.status = "available" ∧ t'.userId = 0 ∧ t'.bookingId = 0) :=
  ⟨by decide,
   (c5ReleaseClearsOwnership dbPendingBooking 201 "cancelled"
      { id := 201, userId := 301, eventId := 1, status := "pending", totalPrice := 100 }
      (by decide) (Or.inl rfl)).1⟩

/-- C6 counterexample: a payment.completed event whose booking id matches
no stored booking is not acknowledged and dropped: the handler returns the
booking-not-found error and the consumer loop answers with
Nack(requeue=true), so the message is redelivered. -/
theorem c6UnknownBookingCounterexample :
    processPaymentEvent dbEmpty "payment.completed" 7 = (dbEmpty, .nackRequeue) ∧
    AckAction.nackRequeue ≠ AckAction.ack := by
  decide

/-- C6 amended: for each of the three payment event types, an event whose
bookingId matches no stored booking leaves the store unchanged, but the
message is negatively acknowledged with requeue requested — it is
redelivered (retried indefinitely, there being no retry ceiling or
dead-letter path), not acknowledged and dropped. -/
theorem c6UnknownBookingRequeued (db : DB) (bid : Nat) (et : String)
    (hfind : db.bookings.find? (fun b => b.id == bid) = none)
    (het : et = "payment.completed" ∨ et = "payment.failed" ∨ et = "payment.refunded") :
    processPaymentEvent db et bid = (db, .nackRequeue) := by
  rcases het with h | h | h <;> subst h <;>
    simp [processPaymentEvent, cancelBooking, updateBookingStatus, hfind]

/-- C6 amended, witnessed on the empty store. -/
theorem c6UnknownBookingRequeuedWitness :
    dbEmpty.bookings.find? (fun b => b.id == 7) = none ∧
    processPaymentEvent dbEmpty "payment.failed" 7 = (dbEmpty, .nackRequeue) :=
  ⟨by decide,
   c6UnknownBookingRequeued dbEmpty 7 "payment.failed" (by decide) (Or.inr (Or.inl rfl))⟩

/-- C8: a user.deleted event cancels exactly the buyer's bookings whose
status is pending or confirmed and releases exactly the ticket units
owned by such a booking, while a user.suspended event does the same for
the buyer's pending bookings only; every other booking row and ticket row
is untouched by both handlers.  Each cancellation runs through
CancelBooking (release included), which for the selected pending and
confirmed bookings coincides with the transition table's cancel edges. -/
theorem c8AccountLifecycleCancellation (db : DB) (uid : Nat)
    (hnodup : (db.bookings.map (fun b => b.id)).Nodup) :
    (handleUserDeleted db uid).bookings = db.bookings.map (fun bk =>
      if bk.userId = uid ∧ (bk.status = "pending" ∨ bk.status = "confirmed")
      then { bk with status := "cancelled" } else bk) ∧
    (handleUserDeleted db uid).tickets = db.tickets.map (fun t =>
      if ∃ b ∈ db.bookings, b.id = t.bookingId ∧ b.userId = uid ∧
          (b.status = "pending" ∨ b.status = "confirmed")
      then releasedTicket t else t) ∧
    (handleUserSuspended db uid).bookings = db.bookings.map (fun bk =>
      if bk.userId = uid ∧ bk.status = "pending"
      then { bk with status := "cancelled" } else bk) ∧
    (handleUserSuspended db uid).tickets = db.tickets.map (fun t =>
      if ∃ b ∈ db.bookings, b.id = t.bookingId ∧ b.userId = uid ∧ b.status = "pending"
      then releasedTicket t else t) := by
  have hdel := userCancel_spec db uid
    (fun b => b.status == "pending" || b.status == "confirmed")
    (fun b => b.status = "pending" ∨ b.status = "confirmed") (fun b => by simp) hnodup
  have hsus := userCancel_spec db uid (fun b => b.status == "pending")
    (fun b => b.status = "pending") (fun b => by simp) hnodup
  rw [handleUserDeleted_eq, handleUserSuspended_eq]
  exact ⟨hdel.1, hdel.2, hsus.1, hsus.2⟩

/-- C8, witnessed on the two-user store. -/
theorem c8AccountLifecycleCancellationWitness :
    (dbUserBookings.bookings.map (fun b => b.id)).Nodup ∧
    (handleUserDeleted dbUserBookings 7).bookings = dbUserBookings.bookings.map (fun bk =>
      if bk.userId = 7 ∧ (bk.status = "pending" ∨ bk.status = "confirmed")
      then { bk with status := "cancelled" } else bk) :=
  ⟨by decide, (c8AccountLifecycleCancellation dbUserBookings 7 (by decide)).1⟩

/-- C9 counterexample: after a successful CreateBooking of a 100-priced
unit, the booking.created payload holds exactly the keys event_type,
booking_id, user_id, event_id, status and timestamp — no key carries the
total price, contradicting the claimed minimum contract. -/
theorem c9NoTotalPriceCounterexample :
    (createBooking dbOneVip 0 201 301 reqOneVip).2.toOption =
      some { id := 201, userId := 301, eventId := 1, status := "pending", totalPrice := 100 } ∧
    ((publishBookingEventPayload "booking.created"
        { id := 201, userId := 301, eventId := 1, status := "pending", totalPrice := 100 }).map
      Prod.fst) = ["event_type", "booking_id", "user_id", "event_id", "status", "timestamp"] ∧
    "total_price" ∉ ["event_type", "booking_id", "user_id", "event_id", "status", "timestamp"] := by
  decide

/-- C9 amended: every booking event payload (in particular booking.created)
carries exactly event_type, the booking id, the buyer id (under the key
user_id), the event id, the status and a timestamp; no field carries the
total price. -/
theorem c9PayloadContract (et : String) (b : Booking) :
    (publishBookingEventPayload et b).map Prod.fst =
      ["event_type", "booking_id", "user_id", "event_id", "status", "timestamp"] ∧
    ("booking_id", PayloadValue.str (toString b.id)) ∈ publishBookingEventPayload et b ∧
    ("user_id", PayloadValue.str (toString b.userId)) ∈ publishBookingEventPayload et b ∧
    ("event_id", PayloadValue.str (toString b.eventId)) ∈ publishBookingEventPayload et b ∧
    ("status", PayloadValue.str b.status) ∈ publishBookingEventPayload et b ∧
    ∀ kv ∈ publishBookingEventPayload et b, kv.1 ≠ "total_price" := by
  simp [publishBookingEventPayload]

/-- C7 amended: starting from a well-formed store, every sequence of
operations in which each creation uses a fresh non-nil booking id and
pairwise-distinct non-empty line-item types, and each status update or
cancellation follows the transition table, preserves well-formedness —
in particular, at every point so reached, every pending or confirmed
booking's total price equals the sum of the prices of its currently
assigned ticket units (and a just-created booking, being pending, has
total price equal to the sum of the prices of the units claimed for
it). -/
theorem c7PriceInvariantValidTraces (db : DB) (ops : List Op) (hwf : WF db)
    (hv : validTrace db ops = true) :
    WF (applyTrace db ops) ∧ priceInv (applyTrace db ops) := by
  induction ops generalizing db with
  | nil => exact ⟨hwf, hwf.2.2.2.2⟩
  | cons op ops ih =>
      have hv' : validOp db op = true ∧ validTrace (applyOp db op) ops = true := by
        simpa [validTrace, Bool.and_eq_true] using hv
      exact ih (applyOp db op) (wf_step db op hwf hv'.1) hv'.2

/-- C7 amended, witnessed on the create-then-confirm trace over the store
with one available VIP unit. -/
theorem c7PriceInvariantValidTracesWitness :
    (WF dbOneVip ∧ validTrace dbOneVip opsCreateThenConfirm = true) ∧
    priceInv (applyTrace dbOneVip opsCreateThenConfirm) :=
  ⟨⟨by decide, by decide⟩,
   (c7PriceInvariantValidTraces dbOneVip opsCreateThenConfirm (by decide) (by decide)).2⟩

/-- C7 counterexample, two scenarios on the store with one 100-priced VIP
unit.  First, a create request with two line items of the same type: both
items pass the availability check against the same unwritten pre-state and
select the same unit, so the persisted pending booking carries total price
200 while the sum of its assigned unit prices is 100 — the invariant fails
at the CreateBooking postcondition itself.  Second, a created booking is
cancelled (units released) and then moved back to confirmed through the
unconditional status update: the booking is confirmed with total price 100
while the sum of its assigned unit prices is 0. -/
theorem c7PriceInvariantCounterexample :
    ((createBooking dbOneVip 0 201 301 reqDupVip).2.toOption.map
        (fun b => (b.status, b.totalPrice)) = some ("pending", 200) ∧
      assignedPriceSum (createBooking dbOneVip 0 201 301 reqDupVip).1 201 = 100) ∧
    ((applyTrace dbOneVip
        [.create 0 201 301 reqOneVip, .updateStatus 201 "cancelled",
         .updateStatus 201 "confirmed"]).bookings.map
          (fun b => (b.id, b.status, b.totalPrice)) = [(201, "confirmed", 100)] ∧
      assignedPriceSum
        (applyTrace dbOneVip
          [.create 0 201 301 reqOneVip, .updateStatus 201 "cancelled",
           .updateStatus 201 "confirmed"]) 201 = 0) := by
  decide

end EventTicket
